import Mathlib

/-! Verification of the go-jenkins client library (github.com/yarlson/go-jenkins).

This file shallowly embeds the request/transport layer (jenkins.go), the
crumb lifecycle, the node data model with its defaulting step, and the
polymorphic XML codec for launchers and SSH host key verification
strategies (launchers.go / nodes.go), and proves the specified properties
about the embedding.

Conventions of the embedding:
  * Go machine integers become `Int` (no arithmetic near overflow occurs);
  * Go `nil`-able pointers and interfaces become `Option`;
  * fallible Go functions returning `(T, error)` become `Except String T`
    or dedicated result types;
  * the HTTP world is a scripted environment: each `http.Client.Do` call
    consumes the next entry of a response script and records the request
    it issued in a trace.
-/

namespace GoJenkins

/-! Section: node data model (nodes.go). -/

/-- The `RetentionsStrategy` from nodes.go: a single class-discriminator string. -/
structure RetentionsStrategy where
  staplerClass : String
deriving Repr, DecidableEq

/-- The `DefaultRetentionsStrategy` from nodes.go. -/
def DefaultRetentionsStrategy : RetentionsStrategy :=
  { staplerClass := "hudson.slaves.RetentionStrategy$Always" }

/-- The `NodeProperties` from nodes.go. -/
structure NodeProperties where
  staplerClassBag : String
deriving Repr, DecidableEq

/-- The `DefaultNodeProperties` from nodes.go. -/
def DefaultNodeProperties : NodeProperties :=
  { staplerClassBag := "true" }

/-- The `DefaultNodeType` from nodes.go (`NodeType` is a string). -/
def DefaultNodeType : String := "hudson.slaves.DumbSlave$DescriptorImpl"

/-- The `WorkDirSettings` from launchers.go. -/
structure WorkDirSettings where
  disabled : Bool
  internalDir : String
  failIfWorkDirIsMissing : Bool
deriving Repr, DecidableEq

/-- The `JNLPLauncher` from launchers.go. -/
structure JNLPLauncher where
  staplerClass : String
  webSocket : Bool
  workDirSettings : WorkDirSettings
deriving Repr, DecidableEq

/-- The `DefaultJNLPLauncher` from launchers.go: only the stapler class is set,
the remaining fields keep their Go zero values. -/
def DefaultJNLPLauncher : JNLPLauncher :=
  { staplerClass := "hudson.slaves.JNLPLauncher"
  , webSocket := false
  , workDirSettings := { disabled := false, internalDir := "", failIfWorkDirIsMissing := false } }

/-- The `ManuallyProvidedKeyVerificationStrategyKey` from launchers.go. -/
structure ManuallyProvidedKey where
  algorithm : String
  key : String
deriving Repr, DecidableEq

/-- The closed set of SSH host key verification strategy variants declared in
launchers.go.  In Go the launcher field has interface type; the four concrete
structs below it are the only inhabitants the library ever constructs.  Each
variant carries its `StaplerClass` discriminator string. -/
inductive SSHHostKeyVerificationStrategy where
  | nonVerifying (staplerClass : String)
  | knownHostsFile (staplerClass : String)
  | manuallyProvided (staplerClass : String) (key : ManuallyProvidedKey)
  | manuallyTrusted (staplerClass : String) (requireInitialManualTrust : Bool)
deriving Repr, DecidableEq

/-- Discriminator of the non-verifying strategy (launchers.go). -/
def nonVerifyingClass : String :=
  "hudson.plugins.sshslaves.verifiers.NonVerifyingKeyVerificationStrategy"

/-- Discriminator of the known-hosts-file strategy (launchers.go). -/
def knownHostsFileClass : String :=
  "hudson.plugins.sshslaves.verifiers.KnownHostsFileKeyVerificationStrategy"

/-- Discriminator of the manually-provided-key strategy (launchers.go). -/
def manuallyProvidedClass : String :=
  "hudson.plugins.sshslaves.verifiers.ManuallyProvidedKeyVerificationStrategy"

/-- Discriminator of the manually-trusted strategy (launchers.go). -/
def manuallyTrustedClass : String :=
  "hudson.plugins.sshslaves.verifiers.ManuallyTrustedKeyVerificationStrategy"

/-- The `NewNonVerifyingKeyVerificationStrategy` from launchers.go. -/
def NewNonVerifyingKeyVerificationStrategy : SSHHostKeyVerificationStrategy :=
  .nonVerifying nonVerifyingClass

/-- The `SSHLauncher` from launchers.go.  The nested strategy interface field is
an `Option` of the closed variant type. -/
structure SSHLauncher where
  staplerClass : String
  host : String
  port : Int
  credentialID : String
  launchTimeoutSeconds : Int
  maxNumRetries : Int
  retryWaitTime : Int
  tcpNoDelay : Bool
  sshHostKeyVerificationStrategy : Option SSHHostKeyVerificationStrategy
deriving Repr, DecidableEq

/-- The `NewSSHLauncher` from launchers.go. -/
def NewSSHLauncher (host : String) (port : Int) (credentialID : String)
    (launchTimeoutSeconds maxNumRetries retryWaitTime : Int) (tcpNoDelay : Bool)
    (strategy : Option SSHHostKeyVerificationStrategy) : SSHLauncher :=
  { staplerClass := "hudson.plugins.sshslaves.SSHLauncher"
  , host, port, credentialID, launchTimeoutSeconds, maxNumRetries, retryWaitTime
  , tcpNoDelay, sshHostKeyVerificationStrategy := strategy }

/-- The `Launcher` interface from launchers.go, restricted to the two concrete
launcher types the library declares. -/
inductive Launcher where
  | jnlp (l : JNLPLauncher)
  | ssh (l : SSHLauncher)
deriving Repr, DecidableEq

/-- The `Node` from nodes.go.  `typ` stands for the Go field `Type` (a Lean
reserved-ish name); `xmlName` models the `XMLName xml.Name` field by its
local element name. -/
structure Node where
  xmlName : String
  name : String
  description : String
  remoteFS : String
  numExecutors : Int
  mode : String
  typ : String
  labels : List String
  retentionsStrategy : Option RetentionsStrategy
  properties : Option NodeProperties
  launcher : Option Launcher
deriving Repr, DecidableEq

/-- The Go zero value of `Node`. -/
def goZeroNode : Node :=
  { xmlName := "", name := "", description := "", remoteFS := "", numExecutors := 0
  , mode := "", typ := "", labels := [], retentionsStrategy := none
  , properties := none, launcher := none }

/-- The `fillInNodeDefaults` from nodes.go: a sequence of conditional in-place
updates, each guarded by the field still having its Go zero value. -/
def fillInNodeDefaults (n : Node) : Node :=
  let n := if n.launcher = none then { n with launcher := some (.jnlp DefaultJNLPLauncher) } else n
  let n := if n.properties = none then { n with properties := some DefaultNodeProperties } else n
  let n := if n.typ = "" then { n with typ := DefaultNodeType } else n
  let n := if n.numExecutors = 0 then { n with numExecutors := 1 } else n
  let n := if n.retentionsStrategy = none then { n with retentionsStrategy := some DefaultRetentionsStrategy } else n
  n

end GoJenkins

namespace GoJenkins

/-- A node with every defaultable field explicitly set, used to witness the
frame part of the defaulting property. -/
def fullySetNode : Node :=
  { xmlName := "", name := "test-node", description := "d", remoteFS := "/var/lib/jenkins"
  , numExecutors := 2, mode := "NORMAL", typ := "custom.Type", labels := ["a"]
  , retentionsStrategy := some { staplerClass := "keep" }
  , properties := some { staplerClassBag := "false" }
  , launcher := some (.ssh (NewSSHLauncher "h" 22 "c" 1 2 3 false none)) }

/-- C3: `fillInNodeDefaults` is idempotent; it leaves nodes whose
`Launcher`, `Properties`, `RetentionsStrategy` are non-nil and whose `Type`
and `NumExecutors` are non-zero entirely unchanged; and it sets the
JNLP-default launcher, the empty-bag properties, the default type
discriminator, `NumExecutors = 1` and the always-retain retention strategy
exactly on the fields that are nil/zero. -/
theorem fillInNodeDefaults_spec :
    (∀ n : Node, fillInNodeDefaults (fillInNodeDefaults n) = fillInNodeDefaults n) ∧
    (∀ n : Node, n.launcher ≠ none → n.properties ≠ none → n.retentionsStrategy ≠ none →
      n.typ ≠ "" → n.numExecutors ≠ 0 → fillInNodeDefaults n = n) ∧
    (∀ n : Node,
      (fillInNodeDefaults n).launcher
        = (if n.launcher = none then some (.jnlp DefaultJNLPLauncher) else n.launcher) ∧
      (fillInNodeDefaults n).properties
        = (if n.properties = none then some DefaultNodeProperties else n.properties) ∧
      (fillInNodeDefaults n).typ = (if n.typ = "" then DefaultNodeType else n.typ) ∧
      (fillInNodeDefaults n).numExecutors = (if n.numExecutors = 0 then 1 else n.numExecutors) ∧
      (fillInNodeDefaults n).retentionsStrategy
        = (if n.retentionsStrategy = none then some DefaultRetentionsStrategy else n.retentionsStrategy) ∧
      (fillInNodeDefaults n).name = n.name ∧
      (fillInNodeDefaults n).description = n.description ∧
      (fillInNodeDefaults n).remoteFS = n.remoteFS ∧
      (fillInNodeDefaults n).mode = n.mode ∧
      (fillInNodeDefaults n).labels = n.labels) := by
  refine ⟨fun n => ?_, fun n h1 h2 h5 h3 h4 => ?_, fun n => ?_⟩
  · unfold fillInNodeDefaults
    by_cases h1 : n.launcher = none <;> by_cases h2 : n.properties = none <;>
      by_cases h3 : n.typ = "" <;> by_cases h4 : n.numExecutors = 0 <;>
      by_cases h5 : n.retentionsStrategy = none <;>
      simp [h1, h2, h3, h4, h5, DefaultNodeType]
  · unfold fillInNodeDefaults
    simp [h1, h2, h3, h4, h5]
  · unfold fillInNodeDefaults
    by_cases h1 : n.launcher = none <;> by_cases h2 : n.properties = none <;>
      by_cases h3 : n.typ = "" <;> by_cases h4 : n.numExecutors = 0 <;>
      by_cases h5 : n.retentionsStrategy = none <;>
      simp [h1, h2, h3, h4, h5]

/-- Witness for C3: the frame part evaluated at a concrete fully-set node. -/
theorem fillInNodeDefaults_spec_witness :
    fullySetNode.launcher ≠ none ∧ fullySetNode.properties ≠ none ∧
    fullySetNode.retentionsStrategy ≠ none ∧ fullySetNode.typ ≠ "" ∧
    fullySetNode.numExecutors ≠ 0 ∧ fillInNodeDefaults fullySetNode = fullySetNode :=
  ⟨by decide, by decide, by decide, by decide, by decide,
    fillInNodeDefaults_spec.2.1 fullySetNode (by decide) (by decide) (by decide)
      (by decide) (by decide)⟩

end GoJenkins

namespace GoJenkins

/-! Section: XML documents.

The polymorphic codec of launchers.go / nodes.go works on parsed XML.  We
model well-formed XML documents as trees of elements and character data;
`encoding/xml` attribute and chardata handling are embedded below on this
tree form. -/

/-- A parsed XML node: an element with attributes and children, or character
data. -/
inductive Xml where
  | elem (name : String) (attrs : List (String × String)) (children : List Xml)
  | chardata (s : String)
deriving Repr

/-- Element name ("" for character data). -/
def Xml.nameOf : Xml → String
  | .elem n _ _ => n
  | .chardata _ => ""

/-- Children of an element (empty for character data). -/
def Xml.childrenOf : Xml → List Xml
  | .elem _ _ cs => cs
  | .chardata _ => []

/-- Value of an attribute, if present (`encoding/xml` leaves the target field
at its zero value when the attribute is absent). -/
def Xml.attrOf (x : Xml) (a : String) : Option String :=
  match x with
  | .elem _ attrs _ => attrs.lookup a
  | .chardata _ => none

/-- The character data directly inside an element, concatenated in order —
what `encoding/xml` assigns to a chardata-backed struct field. -/
def Xml.textOf (x : Xml) : String :=
  x.childrenOf.foldl (fun acc c => match c with | .chardata s => acc ++ s | _ => acc) ""

/-- All child elements with the given name, in document order. -/
def elemsNamed (n : String) (cs : List Xml) : List Xml :=
  cs.filter (fun c => c.nameOf = n)

/-- The last child element with the given name: for a non-slice struct field
`encoding/xml` decodes every matching element in order, so the last
occurrence wins. -/
def lastNamed (n : String) (cs : List Xml) : Option Xml :=
  (elemsNamed n cs).getLast?

/-- Generic decode of a string-typed struct field: chardata of the last
matching element, or the zero value when no element matches. -/
def decStrField (n : String) (cs : List Xml) : String :=
  match lastNamed n cs with
  | some e => e.textOf
  | none => ""

/-- The `strconv` integer parsing as used by `encoding/xml` for int fields:
an optional sign followed by at least one decimal digit. -/
def goParseInt (s : String) : Option Int :=
  let digitsToNat : List Char → Option Nat := fun l =>
    if l.isEmpty then none
    else l.foldlM (fun acc c => if c.isDigit then some (acc * 10 + (c.toNat - 48)) else none) 0
  match s.data with
  | '-' :: rest => (digitsToNat rest).map (fun v => -(v : Int))
  | '+' :: rest => (digitsToNat rest).map (fun v => (v : Int))
  | l => (digitsToNat l).map (fun v => (v : Int))

/-- The `strconv.ParseBool`: the exact set of accepted spellings. -/
def goParseBool (s : String) : Option Bool :=
  if s = "1" ∨ s = "t" ∨ s = "T" ∨ s = "TRUE" ∨ s = "true" ∨ s = "True" then some true
  else if s = "0" ∨ s = "f" ∨ s = "F" ∨ s = "FALSE" ∨ s = "false" ∨ s = "False" then some false
  else none

/-- The `strconv.FormatBool` / the `%v` rendering of a Go bool. -/
def goFormatBool (b : Bool) : String := if b then "true" else "false"

/-- Generic decode of an int-typed struct field: every matching element is
parsed in order (a malformed one is an error), the last value wins, and the
zero value `0` survives when no element matches. -/
def decIntField (n : String) (cs : List Xml) : Except String Int :=
  (elemsNamed n cs).foldlM
    (fun _prev e =>
      match goParseInt e.textOf with
      | some i => Except.ok i
      | none => Except.error ("cannot parse int field " ++ n)) 0

/-- Generic decode of a bool-typed struct field, analogous to `decIntField`. -/
def decBoolField (n : String) (cs : List Xml) : Except String Bool :=
  (elemsNamed n cs).foldlM
    (fun _prev e =>
      match goParseBool e.textOf with
      | some b => Except.ok b
      | none => Except.error ("cannot parse bool field " ++ n)) false

/-- Decode of the nested `ManuallyProvidedKeyVerificationStrategyKey` value
(`xml:"key"`, with string subfields `algorithm` and `key`). -/
def decodeManuallyProvidedKey (cs : List Xml) : ManuallyProvidedKey :=
  match lastNamed "key" cs with
  | none => { algorithm := "", key := "" }
  | some k => { algorithm := decStrField "algorithm" k.childrenOf
              , key := decStrField "key" k.childrenOf }

/-- The `SSHLauncher.UnmarshalXML` from launchers.go, on the parsed element: the
generic (Alias) pass decodes the scalar fields and the `class` attribute and
captures the `sshHostKeyVerificationStrategy` child's class attribute and
inner XML; the switch on that class string then builds the matching variant,
re-parsing the captured inner content for the two variants that carry
further fields.  A class string outside the four cases leaves the strategy
field nil. -/
def sshLauncherUnmarshalXML (x : Xml) : Except String SSHLauncher := do
  let cs := x.childrenOf
  let port ← decIntField "port" cs
  let launchTimeoutSeconds ← decIntField "launchTimeoutSeconds" cs
  let maxNumRetries ← decIntField "maxNumRetries" cs
  let retryWaitTime ← decIntField "retryWaitTime" cs
  let tcpNoDelay ← decBoolField "tcpNoDelay" cs
  let stratClass := match lastNamed "sshHostKeyVerificationStrategy" cs with
    | some e => (e.attrOf "class").getD ""
    | none => ""
  let stratInner := match lastNamed "sshHostKeyVerificationStrategy" cs with
    | some e => e.childrenOf
    | none => []
  let strategy ←
    if stratClass = nonVerifyingClass then
      Except.ok (some (SSHHostKeyVerificationStrategy.nonVerifying stratClass))
    else if stratClass = knownHostsFileClass then
      Except.ok (some (SSHHostKeyVerificationStrategy.knownHostsFile stratClass))
    else if stratClass = manuallyProvidedClass then
      Except.ok (some (SSHHostKeyVerificationStrategy.manuallyProvided stratClass
        (decodeManuallyProvidedKey stratInner)))
    else if stratClass = manuallyTrustedClass then do
      let rim ← decBoolField "requireInitialManualTrust" stratInner
      Except.ok (some (SSHHostKeyVerificationStrategy.manuallyTrusted stratClass rim))
    else
      Except.ok none
  Except.ok
    { staplerClass := (x.attrOf "class").getD ""
    , host := decStrField "host" cs
    , port
    , credentialID := decStrField "credentialId" cs
    , launchTimeoutSeconds, maxNumRetries, retryWaitTime, tcpNoDelay
    , sshHostKeyVerificationStrategy := strategy }

/-- Generic `encoding/xml` decode of `JNLPLauncher` (it has no custom
unmarshaler), used by `Node.UnmarshalXML` on the synthetic `<root>` element. -/
def jnlpLauncherUnmarshalXML (x : Xml) : Except String JNLPLauncher := do
  let cs := x.childrenOf
  let ws ← decBoolField "websocket" cs
  let wds ← match lastNamed "workDirSettings" cs with
    | none => Except.ok ({ disabled := false, internalDir := "", failIfWorkDirIsMissing := false } : WorkDirSettings)
    | some e => do
        let d ← decBoolField "disabled" e.childrenOf
        let f ← decBoolField "failIfWorkDirIsMissing" e.childrenOf
        Except.ok ({ disabled := d, internalDir := decStrField "internalDir" e.childrenOf
                   , failIfWorkDirIsMissing := f } : WorkDirSettings)
  Except.ok { staplerClass := (x.attrOf "class").getD "", webSocket := ws, workDirSettings := wds }

/-- The `Node.UnmarshalXML` from nodes.go: the generic pass decodes the plain
fields and captures the `launcher` child's class attribute and inner XML;
the switch re-parses the inner XML (wrapped in a synthetic `<root>`) as a
`JNLPLauncher` or an `SSHLauncher` for the two recognized class strings and
leaves the launcher nil otherwise. -/
def nodeUnmarshalXML (x : Xml) : Except String Node := do
  if x.nameOf ≠ "slave" then Except.error "expected element type slave"
  let cs := x.childrenOf
  let numExecutors ← decIntField "numExecutors" cs
  let retentionsStrategy := match lastNamed "retentionsStrategy" cs with
    | none => none
    | some e => some ({ staplerClass := (e.attrOf "class").getD "" } : RetentionsStrategy)
  let properties := match lastNamed "nodeProperties" cs with
    | none => none
    | some e => some ({ staplerClassBag := decStrField "StaplerClassBag" e.childrenOf } : NodeProperties)
  let launcher ← match lastNamed "launcher" cs with
    | none => Except.ok none
    | some e =>
      let cls := (e.attrOf "class").getD ""
      let root := Xml.elem "root" [] e.childrenOf
      if cls = "hudson.slaves.JNLPLauncher" then do
        let j ← jnlpLauncherUnmarshalXML root
        Except.ok (some (Launcher.jnlp j))
      else if cls = "hudson.slaves.SSHLauncher" then do
        let l ← sshLauncherUnmarshalXML root
        Except.ok (some (Launcher.ssh l))
      else
        Except.ok none
  Except.ok
    { xmlName := "slave"
    , name := decStrField "name" cs
    , description := decStrField "description" cs
    , remoteFS := decStrField "remoteFS" cs
    , numExecutors
    , mode := decStrField "mode" cs
    , typ := decStrField "type" cs
    , labels := (elemsNamed "label" cs).map Xml.textOf
    , retentionsStrategy, properties, launcher }

end GoJenkins

namespace GoJenkins

/-- Shorthand for a simple element wrapping character data, as produced by
`encoding/xml` for a chardata-backed field. -/
def txtElem (n s : String) : Xml := .elem n [] [.chardata s]

/-- The `encoding/xml` marshal of the four strategy structs (each is emitted
under the interface field's tag name with its `class,attr` discriminator;
`requireInitialManualTrust` carries `omitempty`). -/
def encodeStrategy : SSHHostKeyVerificationStrategy → Xml
  | .nonVerifying c => .elem "sshHostKeyVerificationStrategy" [("class", c)] []
  | .knownHostsFile c => .elem "sshHostKeyVerificationStrategy" [("class", c)] []
  | .manuallyProvided c k =>
      .elem "sshHostKeyVerificationStrategy" [("class", c)]
        [.elem "key" [] [txtElem "algorithm" k.algorithm, txtElem "key" k.key]]
  | .manuallyTrusted c rim =>
      .elem "sshHostKeyVerificationStrategy" [("class", c)]
        (if rim then [txtElem "requireInitialManualTrust" "true"] else [])

/-- The `encoding/xml` marshal of a launcher value stored in the `Launcher`
interface field (tag `xml:"launcher"`): the dynamic struct's fields follow
its tags; `websocket` carries `omitempty`, the nested work dir settings
struct is always emitted. -/
def encodeLauncher : Launcher → Xml
  | .jnlp j =>
      .elem "launcher" [("class", j.staplerClass)]
        ((if j.webSocket then [txtElem "websocket" "true"] else []) ++
          [.elem "workDirSettings" []
            [txtElem "disabled" (goFormatBool j.workDirSettings.disabled)
            , txtElem "internalDir" j.workDirSettings.internalDir
            , txtElem "failIfWorkDirIsMissing" (goFormatBool j.workDirSettings.failIfWorkDirIsMissing)]])
  | .ssh l =>
      .elem "launcher" [("class", l.staplerClass)]
        ([txtElem "host" l.host
         , txtElem "port" (toString l.port)
         , txtElem "credentialId" l.credentialID
         , txtElem "launchTimeoutSeconds" (toString l.launchTimeoutSeconds)
         , txtElem "maxNumRetries" (toString l.maxNumRetries)
         , txtElem "retryWaitTime" (toString l.retryWaitTime)
         , txtElem "tcpNoDelay" (goFormatBool l.tcpNoDelay)] ++
          (match l.sshHostKeyVerificationStrategy with
           | none => []
           | some s => [encodeStrategy s]))

/-- The `xml.Marshal` of a `Node` as a `<slave>` document, per the struct tags of
nodes.go: scalar fields as chardata elements, one `<label>` element per
label, class-attributed retention strategy, `nodeProperties` with its
untagged `StaplerClassBag` field, and the polymorphic launcher. -/
def encodeNode (n : Node) : Xml :=
  .elem (if n.xmlName = "" then "slave" else n.xmlName) []
    ([txtElem "name" n.name
     , txtElem "description" n.description
     , txtElem "remoteFS" n.remoteFS
     , txtElem "numExecutors" (toString n.numExecutors)
     , txtElem "mode" n.mode
     , txtElem "type" n.typ] ++
      n.labels.map (fun s => txtElem "label" s) ++
      (match n.retentionsStrategy with
       | none => []
       | some r => [Xml.elem "retentionsStrategy" [("class", r.staplerClass)] []]) ++
      (match n.properties with
       | none => []
       | some p => [Xml.elem "nodeProperties" [] [txtElem "StaplerClassBag" p.staplerClassBag]]) ++
      (match n.launcher with
       | none => []
       | some l => [encodeLauncher l]))

end GoJenkins

namespace GoJenkins

/-- A well-formed `sshHostKeyVerificationStrategy` fragment with the given
class attribute and inner content. -/
def mkStrategyFragment (cls : String) (inner : List Xml) : Xml :=
  Xml.elem "sshHostKeyVerificationStrategy" [("class", cls)] inner

/-- A well-formed SSH launcher fragment (the shape of the launcher fixtures
in the repository's own tests) around the given strategy fragment. -/
def mkSSHLauncherFragment (strat : Xml) : Xml :=
  Xml.elem "launcher" [("class", "hudson.plugins.sshslaves.SSHLauncher")]
    [txtElem "host" "ss", txtElem "port" "22", txtElem "credentialId" "ss"
    , txtElem "launchTimeoutSeconds" "60", txtElem "maxNumRetries" "10"
    , txtElem "retryWaitTime" "15", strat, txtElem "tcpNoDelay" "true"]

/-- The launcher value `mkSSHLauncherFragment` decodes to, parameterized by
the decoded strategy. -/
def expectedSSHLauncher (s : Option SSHHostKeyVerificationStrategy) : SSHLauncher :=
  { staplerClass := "hudson.plugins.sshslaves.SSHLauncher"
  , host := "ss", port := 22, credentialID := "ss"
  , launchTimeoutSeconds := 60, maxNumRetries := 10, retryWaitTime := 15
  , tcpNoDelay := true, sshHostKeyVerificationStrategy := s }

/-- C2: decoding a well-formed SSH launcher fragment whose strategy element
carries one of the four known class strings yields the matching variant with
its variant-specific fields (and the discriminator) populated; an
unrecognized class string decodes to a launcher whose strategy holds no
variant at all, without an error. -/
theorem sshLauncher_decode_strategy_variants :
    (sshLauncherUnmarshalXML (mkSSHLauncherFragment (mkStrategyFragment nonVerifyingClass []))
      = Except.ok (expectedSSHLauncher (some (.nonVerifying nonVerifyingClass)))) ∧
    (sshLauncherUnmarshalXML (mkSSHLauncherFragment (mkStrategyFragment knownHostsFileClass []))
      = Except.ok (expectedSSHLauncher (some (.knownHostsFile knownHostsFileClass)))) ∧
    (∀ alg km : String,
      sshLauncherUnmarshalXML (mkSSHLauncherFragment (mkStrategyFragment manuallyProvidedClass
          [Xml.elem "key" [] [txtElem "algorithm" alg, txtElem "key" km]]))
        = Except.ok (expectedSSHLauncher
            (some (.manuallyProvided manuallyProvidedClass { algorithm := alg, key := km })))) ∧
    (∀ b : Bool,
      sshLauncherUnmarshalXML (mkSSHLauncherFragment (mkStrategyFragment manuallyTrustedClass
          [txtElem "requireInitialManualTrust" (goFormatBool b)]))
        = Except.ok (expectedSSHLauncher (some (.manuallyTrusted manuallyTrustedClass b)))) ∧
    (∀ cls : String, cls ≠ nonVerifyingClass → cls ≠ knownHostsFileClass →
      cls ≠ manuallyProvidedClass → cls ≠ manuallyTrustedClass →
      ∀ inner : List Xml,
        sshLauncherUnmarshalXML (mkSSHLauncherFragment (mkStrategyFragment cls inner))
          = Except.ok (expectedSSHLauncher none)) := by
  refine ⟨rfl, rfl, fun alg km => ?_, fun b => ?_, fun cls h1 h2 h3 h4 inner => ?_⟩
  · rfl
  · cases b <;> rfl
  · simp only [sshLauncherUnmarshalXML, mkSSHLauncherFragment, mkStrategyFragment, txtElem,
      expectedSSHLauncher, elemsNamed, lastNamed, decIntField, decBoolField, decStrField,
      Xml.childrenOf, Xml.nameOf, Xml.attrOf, Xml.textOf]
    simp [h1, h2, h3, h4, List.filter, List.lookup, goParseInt, goParseBool]
    rfl

/-- Witness for C2: the unrecognized-class branch evaluated at a concrete
class string. -/
theorem sshLauncher_decode_strategy_variants_witness :
    ("com.example.Unknown" : String) ≠ nonVerifyingClass ∧
    ("com.example.Unknown" : String) ≠ knownHostsFileClass ∧
    ("com.example.Unknown" : String) ≠ manuallyProvidedClass ∧
    ("com.example.Unknown" : String) ≠ manuallyTrustedClass ∧
    sshLauncherUnmarshalXML (mkSSHLauncherFragment (mkStrategyFragment "com.example.Unknown" []))
      = Except.ok (expectedSSHLauncher none) :=
  ⟨by decide, by decide, by decide, by decide,
    sshLauncher_decode_strategy_variants.2.2.2.2 "com.example.Unknown"
      (by decide) (by decide) (by decide) (by decide) []⟩

/-- The node of C6: built the way the repository's integration test builds an
SSH node, with the launcher coming from `NewSSHLauncher`. -/
def sshRoundTripNode : Node :=
  { xmlName := "", name := "test-node", description := "", remoteFS := "/var/lib/jenkins"
  , numExecutors := 1, mode := "EXCLUSIVE", typ := DefaultNodeType, labels := ["test"]
  , retentionsStrategy := some DefaultRetentionsStrategy
  , properties := some DefaultNodeProperties
  , launcher := some (.ssh (NewSSHLauncher "localhost" 22 "jenkins" 10 15 10 true
      (some NewNonVerifyingKeyVerificationStrategy))) }

/-- C6 (code bug): XML-encoding a node whose launcher was built by
`NewSSHLauncher` (discriminator `hudson.plugins.sshslaves.SSHLauncher`) and
decoding the document back does NOT restore the SSH variant: the decode
succeeds but leaves the launcher nil, because `Node.UnmarshalXML` dispatches
on the string `hudson.slaves.SSHLauncher`, which the encoder never emits. -/
theorem nodeRoundTrip_drops_ssh_launcher :
    (NewSSHLauncher "localhost" 22 "jenkins" 10 15 10 true
        (some NewNonVerifyingKeyVerificationStrategy)).staplerClass
      = "hudson.plugins.sshslaves.SSHLauncher" ∧
    sshRoundTripNode.launcher.isSome = true ∧
    (nodeUnmarshalXML (encodeNode sshRoundTripNode)).toOption.map Node.launcher = some none := by
  refine ⟨rfl, rfl, by decide⟩

end GoJenkins

namespace GoJenkins

/-! Section: transport layer and crumb lifecycle (jenkins.go).

The HTTP environment is a script: each `http.Client.Do` consumes the next
scripted outcome and records the issued request in a trace, so theorems can
speak about which requests an operation sends. -/

/-- The `Crumbs` from jenkins.go: the `{crumb, crumbRequestField}` pair. -/
structure Crumbs where
  value : String
  requestField : String
deriving Repr, DecidableEq

/-- An HTTP cookie (name/value suffice for the jar logic). -/
structure Cookie where
  name : String
  value : String
deriving Repr, DecidableEq

/-- A response body: readable bytes, or a body whose read fails
(`io.ReadAll` error). -/
inductive Body where
  | bytes (s : String)
  | broken
deriving Repr, DecidableEq

/-- An HTTP response as the client observes it: status code, status line
text (`resp.Status`), `Set-Cookie` cookies, and the body. -/
structure HttpResponse where
  statusCode : Nat
  status : String
  cookies : List Cookie
  body : Body
deriving Repr, DecidableEq

/-- An outbound HTTP request. -/
structure HttpRequest where
  method : String
  url : String
  headers : List (String × String)
  reqBody : String
deriving Repr, DecidableEq

/-- One scripted outcome of `http.Client.Do`: a response, or a transport
error (in which case Go's client returns a nil response). -/
inductive DoResult where
  | ok (resp : HttpResponse)
  | fail
deriving Repr, DecidableEq

/-- The mutable parts of `Client` the embedded operations touch: base URL,
whether a cookie jar is installed, the jar contents (pairs of the URL passed
to `SetCookies` and the cookie), and the held crumbs. -/
structure ClientState where
  baseURL : String
  hasJar : Bool
  jar : List (String × Cookie)
  crumbs : Option Crumbs
deriving Repr, DecidableEq

/-- The world an operation runs in: the client state, the remaining response
script, and the trace of requests issued so far. -/
structure World where
  client : ClientState
  script : List DoResult
  issued : List HttpRequest
deriving Repr, DecidableEq

/-- The `http.Client.Do`: records the request and consumes the next scripted
outcome (an exhausted script acts as a transport error). -/
def httpDo (w : World) (req : HttpRequest) : Option HttpResponse × World :=
  let w2 := { w with issued := w.issued ++ [req] }
  match w2.script with
  | [] => (none, w2)
  | DoResult.fail :: rest => (none, { w2 with script := rest })
  | DoResult.ok r :: rest => (some r, { w2 with script := rest })

/-- The `strings.TrimPrefix(query, "/")` for the single leading slash. -/
def goTrimLeadingSlash (q : String) : String :=
  match q.data with
  | '/' :: rest => String.mk rest
  | _ => q

/-- The `newRequest` from jenkins.go: joins the base URL with
`"/" + strings.TrimPrefix(query, "/")`; no headers are attached here. -/
def newRequest (c : ClientState) (method query bodyStr : String) : HttpRequest :=
  { method, url := c.baseURL ++ "/" ++ goTrimLeadingSlash query, headers := [], reqBody := bodyStr }

/-- The `http.Header.Set`: replaces every existing entry of the name, appends
otherwise (header-name canonicalization is not modelled; the library only
uses literal names consistently). -/
def headerSet (hs : List (String × String)) (k v : String) : List (String × String) :=
  if hs.any (fun p => p.1 = k) then
    (hs.filter (fun p => p.1 ≠ k)) ++ [(k, v)]
  else hs ++ [(k, v)]

/-- The crumb-consuming block that appears verbatim in both `newFormRequest`
and `post` (jenkins.go): when crumbs are held, `Header.Add` appends the pair
as a header and the stored crumbs are cleared; otherwise nothing happens. -/
def attachCrumb : Option Crumbs → List (String × String) → List (String × String) × Option Crumbs
  | none, hs => (hs, none)
  | some cr, hs => (hs ++ [(cr.requestField, cr.value)], none)

/-- The `url.Values.Encode`, modelled as plain `k=v&…` joining (the library
never inspects the encoded form body, so percent-escaping and key sorting
are irrelevant here). -/
def urlValuesEncode (values : List (String × String)) : String :=
  String.intercalate "&" (values.map (fun p => p.1 ++ "=" ++ p.2))

/-- The `newFormRequest` from jenkins.go: a POST with the encoded form body and
form content type, consuming held crumbs into a header. -/
def newFormRequest (c : ClientState) (query : String) (values : List (String × String)) :
    HttpRequest × ClientState :=
  let req := newRequest c "POST" query (urlValuesEncode values)
  let req2 := { req with headers := headerSet req.headers "Content-Type" "application/x-www-form-urlencoded" }
  let hc := attachCrumb c.crumbs req2.headers
  ({ req2 with headers := hc.1 }, { c with crumbs := hc.2 })

/-- The cookie-propagation loop shared by `get`, `postForm` and `post`: when
a jar is installed, each response cookie is added under the request URL. -/
def setCookiesJar (c : ClientState) (u : String) (cookies : List Cookie) : ClientState :=
  if c.hasJar then { c with jar := c.jar ++ cookies.map (fun ck => (u, ck)) } else c

/-- Outcome of an operation, mirroring Go's `(resp, err)` conventions:
`failure` carries the (possibly nil) response returned alongside the error. -/
inductive OpResult where
  | failure (resp : Option HttpResponse) (e : String)
  | success (resp : HttpResponse)
deriving Repr, DecidableEq

/-- The `http.StatusText` for the codes exercised here (a pure table lookup in
Go's stdlib). -/
def goStatusText (code : Nat) : String :=
  if code = 400 then "Bad Request"
  else if code = 404 then "Not Found"
  else if code = 500 then "Internal Server Error"
  else ""

/-- The error string `fmt.Errorf("%d %s", resp.StatusCode, resp.Status)`
used by `get`. -/
def remoteErrStatus (code : Nat) (status : String) : String :=
  toString code ++ " " ++ status

/-- The `get` from jenkins.go: build, execute, classify a status above 299 as an
error that still carries the response, propagate cookies on success. -/
def get (w : World) (query : String) : OpResult × World :=
  let req := newRequest w.client "GET" query ""
  match httpDo w req with
  | (none, w2) => (OpResult.failure none "transport error", w2)
  | (some r, w2) =>
    if 299 < r.statusCode then
      (OpResult.failure (some r) (remoteErrStatus r.statusCode r.status), w2)
    else
      (OpResult.success r, { w2 with client := setCookiesJar w2.client req.url r.cookies })

/-- The `crumbURL` from jenkins.go. -/
def crumbPath : String := "/crumbIssuer/api/json"

/-- The `io.ReadAll` on a response body. -/
def readAll : Body → Option String
  | Body.bytes s => some s
  | Body.broken => none

end GoJenkins

namespace GoJenkins

/-- JSON whitespace skipping. -/
def skipWs : List Char → List Char
  | [] => []
  | c :: rest => if c = ' ' ∨ c = '\t' ∨ c = '\n' ∨ c = '\r' then skipWs rest else c :: rest

/-- Reads the remainder of a JSON string literal (escape sequences are not
modelled and are treated as malformed input). -/
def strLitAux : List Char → List Char → Option (String × List Char)
  | [], _ => none
  | '"' :: rest, acc => some (String.mk acc.reverse, rest)
  | '\\' :: _, _ => none
  | c :: rest, acc => strLitAux rest (c :: acc)

/-- Parses a JSON string literal. -/
def parseStrLit : List Char → Option (String × List Char)
  | '"' :: rest => strLitAux rest []
  | _ => none

/-- Parses the `"k":"v"` pairs of a flat JSON object after its opening
brace; `fuel` bounds the recursion by the input length. -/
def parsePairsAux : Nat → List Char → List (String × String) →
    Option (List (String × String) × List Char)
  | 0, _, _ => none
  | fuel + 1, l, acc =>
    match parseStrLit (skipWs l) with
    | none => none
    | some (k, rest) =>
      match skipWs rest with
      | ':' :: rest2 =>
        match parseStrLit (skipWs rest2) with
        | none => none
        | some (v, rest3) =>
          match skipWs rest3 with
          | ',' :: rest4 => parsePairsAux fuel rest4 (acc ++ [(k, v)])
          | '\x7d' :: rest4 => some (acc ++ [(k, v)], rest4)
          | _ => none
      | _ => none

/-- The `encoding/json` unmarshalling restricted to the shape the crumb issuer
returns: a flat object whose values are strings.  Anything else is a
malformed body (`json.Unmarshal` error). -/
def jsonParseFlatStringObject (s : String) : Option (List (String × String)) :=
  match skipWs s.data with
  | '\x7b' :: rest =>
    match skipWs rest with
    | '\x7d' :: rest2 => if (skipWs rest2).isEmpty then some [] else none
    | _ =>
      match parsePairsAux (s.length + 1) rest [] with
      | some (ps, rest2) => if (skipWs rest2).isEmpty then some ps else none
      | none => none
  | _ => none

/-- The value of the last occurrence of a key (later JSON keys overwrite
earlier ones), or the field's zero value. -/
def lastValue (ps : List (String × String)) (k : String) : String :=
  ps.foldl (fun acc p => if p.1 = k then p.2 else acc) ""

/-- The `json.Unmarshal(body, &Crumbs{})`: the `crumb` and `crumbRequestField`
keys populate the pair; absent keys leave the zero value. -/
def jsonUnmarshalCrumbs (s : String) : Option Crumbs :=
  (jsonParseFlatStringObject s).map (fun ps =>
    { value := lastValue ps "crumb", requestField := lastValue ps "crumbRequestField" })

/-- The `setCrumbs` from jenkins.go: GET the crumb endpoint, read the body,
unmarshal it, and store the crumbs; every failure is returned together with
the response of the crumb fetch. -/
def setCrumbs (w : World) : OpResult × World :=
  match get w crumbPath with
  | (OpResult.failure r e, w2) => (OpResult.failure r e, w2)
  | (OpResult.success r, w2) =>
    match readAll r.body with
    | none => (OpResult.failure (some r) "read error", w2)
    | some s =>
      match jsonUnmarshalCrumbs s with
      | none => (OpResult.failure (some r) "unmarshal error", w2)
      | some cr => (OpResult.success r, { w2 with client := { w2.client with crumbs := some cr } })

/-- The error string `fmt.Errorf("%d %s", code, http.StatusText(code))`
used by `postForm` and `post`. -/
def remoteErrStatusText (code : Nat) : String :=
  toString code ++ " " ++ goStatusText code

/-- The `postForm` from jenkins.go: crumb refresh, form request build (consuming
the crumbs), execute, classify a status above 299 before the cookie-jar
update.  (`convertBodyStruct` is reflection over the caller's struct; its
resulting `url.Values` are taken as the argument here.) -/
def postForm (w : World) (query : String) (values : List (String × String)) :
    OpResult × World :=
  match setCrumbs w with
  | (OpResult.failure r e, w2) => (OpResult.failure r e, w2)
  | (OpResult.success _, w2) =>
    let rc := newFormRequest w2.client query values
    let w3 := { w2 with client := rc.2 }
    match httpDo w3 rc.1 with
    | (none, w4) => (OpResult.failure none "transport error", w4)
    | (some r, w4) =>
      if 299 < r.statusCode then
        (OpResult.failure (some r) (remoteErrStatusText r.statusCode), w4)
      else
        (OpResult.success r, { w4 with client := setCookiesJar w4.client rc.1.url r.cookies })

/-- The `post` from jenkins.go: crumb refresh, XML POST build with the inline
crumb-consuming block, execute, classify, cookie-jar update on success.
(`xml.Marshal` of the body happens before the request build; the already
marshalled XML string is the argument — for the `Node` model it is total.) -/
def post (w : World) (query : String) (bodyXml : String) : OpResult × World :=
  match setCrumbs w with
  | (OpResult.failure r e, w2) => (OpResult.failure r e, w2)
  | (OpResult.success _, w2) =>
    let req := newRequest w2.client "POST" query bodyXml
    let req2 := { req with headers := headerSet req.headers "Content-Type" "application/xml" }
    let hc := attachCrumb w2.client.crumbs req2.headers
    let req3 := { req2 with headers := hc.1 }
    let w3 := { w2 with client := { w2.client with crumbs := hc.2 } }
    match httpDo w3 req3 with
    | (none, w4) => (OpResult.failure none "transport error", w4)
    | (some r, w4) =>
      if 299 < r.statusCode then
        (OpResult.failure (some r) (remoteErrStatusText r.statusCode), w4)
      else
        (OpResult.success r, { w4 with client := setCookiesJar w4.client req3.url r.cookies })

end GoJenkins

namespace GoJenkins

/-- The world of the crumb end-to-end example: no crumbs held, and the
crumb issuer scripted to answer with the example JSON body. -/
def crumbExampleWorld : World :=
  { client := { baseURL := "http://127.0.0.1:8080", hasJar := false, jar := [], crumbs := none }
  , script := [DoResult.ok
      { statusCode := 200, status := "200 OK", cookies := []
      , body := Body.bytes "\x7b\"crumb\":\"abc\",\"crumbRequestField\":\"Jenkins-Crumb\"\x7d" }]
  , issued := [] }

/-- C1: building a mutating request consumes the held crumb into exactly one
appended header and clears the stored crumb; with no crumb held, no header
is added and the crumb state stays nil.  The same holds for the identical
inline block of `post` (`attachCrumb`), and the
`{"crumb":"abc","crumbRequestField":"Jenkins-Crumb"}` fetch example ends
with header `Jenkins-Crumb: abc` and an absent crumb. -/
theorem newFormRequest_consumes_crumb :
    (∀ (c : ClientState) (q : String) (values : List (String × String)) (v f : String),
      c.crumbs = some { value := v, requestField := f } →
      (newFormRequest c q values).1.headers
        = [("Content-Type", "application/x-www-form-urlencoded"), (f, v)] ∧
      (newFormRequest c q values).2.crumbs = none) ∧
    (∀ (c : ClientState) (q : String) (values : List (String × String)),
      c.crumbs = none →
      (newFormRequest c q values).1.headers
        = [("Content-Type", "application/x-www-form-urlencoded")] ∧
      (newFormRequest c q values).2.crumbs = none) ∧
    (∀ (hs : List (String × String)) (v f : String),
      attachCrumb (some { value := v, requestField := f }) hs = (hs ++ [(f, v)], none) ∧
      attachCrumb none hs = (hs, none)) ∧
    ((setCrumbs crumbExampleWorld).2.client.crumbs
        = some { value := "abc", requestField := "Jenkins-Crumb" } ∧
      (newFormRequest (setCrumbs crumbExampleWorld).2.client "/computer/doCreateItem" []).1.headers
        = [("Content-Type", "application/x-www-form-urlencoded"), ("Jenkins-Crumb", "abc")] ∧
      (newFormRequest (setCrumbs crumbExampleWorld).2.client "/computer/doCreateItem" []).2.crumbs
        = none) := by
  refine ⟨fun c q values v f h => ?_, fun c q values h => ?_, fun hs v f => ?_, ?_⟩
  · simp [newFormRequest, newRequest, headerSet, attachCrumb, h]
  · simp [newFormRequest, newRequest, headerSet, attachCrumb, h]
  · simp [attachCrumb]
  · refine ⟨by decide, by decide, by decide⟩

/-- Witness for C1: the held-crumb branch evaluated at a concrete client. -/
theorem newFormRequest_consumes_crumb_witness :
    ({ baseURL := "b", hasJar := false, jar := [], crumbs := some { value := "abc", requestField := "Jenkins-Crumb" } } : ClientState).crumbs
      = some { value := "abc", requestField := "Jenkins-Crumb" } ∧
    (newFormRequest { baseURL := "b", hasJar := false, jar := [], crumbs := some { value := "abc", requestField := "Jenkins-Crumb" } } "q" []).1.headers
      = [("Content-Type", "application/x-www-form-urlencoded"), ("Jenkins-Crumb", "abc")] :=
  ⟨rfl, (newFormRequest_consumes_crumb.1
      { baseURL := "b", hasJar := false, jar := [], crumbs := some { value := "abc", requestField := "Jenkins-Crumb" } }
      "q" [] "abc" "Jenkins-Crumb" rfl).1⟩

end GoJenkins

namespace GoJenkins

/-- The `get` always issues exactly one request and leaves the prior trace
intact. -/
theorem get_issued (w : World) (q : String) :
    (get w q).2.issued = w.issued ++ [newRequest w.client "GET" q ""] := by
  unfold get httpDo
  rcases hs : w.script with _ | ⟨r | _, rest⟩ <;> simp only [hs] <;>
    first
      | rfl
      | (split <;> simp [setCookiesJar])

/-- The `setCrumbs` leaves the request trace of its inner `get` unchanged. -/
theorem setCrumbs_issued_eq_get (w : World) :
    (setCrumbs w).2.issued = (get w crumbPath).2.issued := by
  unfold setCrumbs
  rcases hg : get w crumbPath with ⟨res, w2⟩
  cases res with
  | failure r e => rfl
  | success r =>
    cases hb : r.body with
    | broken => simp [readAll, hb]
    | bytes s => cases hj : jsonUnmarshalCrumbs s <;> simp [readAll, hb, hj]

/-- The `setCrumbs` always issues exactly one request: the GET to the crumb
endpoint. -/
theorem setCrumbs_issued (w : World) :
    (setCrumbs w).2.issued = w.issued ++ [newRequest w.client "GET" crumbPath ""] := by
  rw [setCrumbs_issued_eq_get, get_issued]

/-- The world used to witness the crumb-failure abort: an empty script makes
the crumb fetch fail with a transport error. -/
def crumbFailWorld : World :=
  { client := { baseURL := "http://127.0.0.1:8080", hasJar := true, jar := [], crumbs := none }
  , script := [], issued := [] }

/-- C4: when the crumb refresh fails, `postForm` and `post` return exactly
the crumb fetch's response and error, and the only request ever issued is
the crumb GET — the mutating POST is never sent. -/
theorem mutating_aborts_on_crumb_failure :
    ∀ (w : World) (q : String) (values : List (String × String)) (bodyXml : String)
      (r : Option HttpResponse) (e : String) (w2 : World),
      setCrumbs w = (OpResult.failure r e, w2) →
      postForm w q values = (OpResult.failure r e, w2) ∧
      post w q bodyXml = (OpResult.failure r e, w2) ∧
      w2.issued = w.issued ++ [newRequest w.client "GET" crumbPath ""] := by
  intro w q values bodyXml r e w2 h
  refine ⟨?_, ?_, ?_⟩
  · simp [postForm, h]
  · simp [post, h]
  · have := setCrumbs_issued w
    rw [h] at this
    exact this

/-- Witness for C4: with an empty script the crumb fetch fails with a
transport error, and `postForm` propagates it with no further request. -/
theorem mutating_aborts_on_crumb_failure_witness :
    setCrumbs crumbFailWorld = (OpResult.failure none "transport error", (setCrumbs crumbFailWorld).2) ∧
    postForm crumbFailWorld "computer/doCreateItem" []
      = (OpResult.failure none "transport error", (setCrumbs crumbFailWorld).2) ∧
    (setCrumbs crumbFailWorld).2.issued
      = crumbFailWorld.issued ++ [newRequest crumbFailWorld.client "GET" crumbPath ""] :=
  ⟨by decide,
    (mutating_aborts_on_crumb_failure crumbFailWorld "computer/doCreateItem" [] ""
      none "transport error" (setCrumbs crumbFailWorld).2 (by decide)).1,
    (mutating_aborts_on_crumb_failure crumbFailWorld "computer/doCreateItem" [] ""
      none "transport error" (setCrumbs crumbFailWorld).2 (by decide)).2.2⟩

end GoJenkins

namespace GoJenkins

/-- C5: a scripted response with status at least 300 makes `get`, `postForm`
and `post` return an error carrying the status code and status text together
with the non-nil response, while a status below 300 yields a nil error. -/
theorem status_above_299_is_error :
    (∀ (w : World) (q : String) (r : HttpResponse) (rest : List DoResult),
      w.script = DoResult.ok r :: rest →
      (300 ≤ r.statusCode →
        (get w q).1 = OpResult.failure (some r) (remoteErrStatus r.statusCode r.status)) ∧
      (r.statusCode < 300 → (get w q).1 = OpResult.success r)) ∧
    (∀ (w : World) (q : String) (values : List (String × String)) (c : HttpResponse)
      (w2 : World) (r : HttpResponse) (rest : List DoResult),
      setCrumbs w = (OpResult.success c, w2) → w2.script = DoResult.ok r :: rest →
      (300 ≤ r.statusCode →
        (postForm w q values).1 = OpResult.failure (some r) (remoteErrStatusText r.statusCode)) ∧
      (r.statusCode < 300 → (postForm w q values).1 = OpResult.success r)) ∧
    (∀ (w : World) (q bodyXml : String) (c : HttpResponse)
      (w2 : World) (r : HttpResponse) (rest : List DoResult),
      setCrumbs w = (OpResult.success c, w2) → w2.script = DoResult.ok r :: rest →
      (300 ≤ r.statusCode →
        (post w q bodyXml).1 = OpResult.failure (some r) (remoteErrStatusText r.statusCode)) ∧
      (r.statusCode < 300 → (post w q bodyXml).1 = OpResult.success r)) := by
  refine ⟨fun w q r rest hs => ?_, fun w q values c w2 r rest hc hs => ?_,
    fun w q bodyXml c w2 r rest hc hs => ?_⟩
  · unfold get httpDo
    simp only [hs]
    constructor
    · intro hge
      rw [if_pos (by omega)]
    · intro hlt
      rw [if_neg (by omega)]
  · unfold postForm
    rw [hc]
    unfold httpDo
    simp only [newFormRequest, hs]
    constructor
    · intro hge
      rw [if_pos (by omega)]
    · intro hlt
      rw [if_neg (by omega)]
  · unfold post
    rw [hc]
    unfold httpDo
    simp only [hs]
    constructor
    · intro hge
      rw [if_pos (by omega)]
    · intro hlt
      rw [if_neg (by omega)]

end GoJenkins

namespace GoJenkins

/-- The 404 response of the witness below. -/
def notFoundResponse : HttpResponse :=
  { statusCode := 404, status := "404 Not Found", cookies := [], body := Body.bytes "" }

/-- A world scripted to answer 404 to the next request. -/
def notFoundWorld : World :=
  { client := { baseURL := "http://127.0.0.1:8080", hasJar := true, jar := [], crumbs := none }
  , script := [DoResult.ok notFoundResponse], issued := [] }

/-- Witness for C5: a remote 404 on a GET comes back as an error carrying
status 404 together with the non-nil response. -/
theorem status_above_299_is_error_witness :
    notFoundWorld.script = DoResult.ok notFoundResponse :: [] ∧
    300 ≤ notFoundResponse.statusCode ∧
    (get notFoundWorld "computer/test/config.xml").1
      = OpResult.failure (some notFoundResponse) (remoteErrStatus 404 "404 Not Found") :=
  ⟨rfl, by decide,
    (status_above_299_is_error.1 notFoundWorld "computer/test/config.xml"
      notFoundResponse [] rfl).1 (by decide)⟩

/-- C9: when the POST of `postForm` or `post` comes back with status at
least 300, the operation returns before the cookie-jar update, so the jar
still holds exactly what it held after the crumb fetch; only a status below
300 appends that response's cookies (under the request URL) to the jar. -/
theorem jar_update_only_below_300 :
    ∀ (w : World) (q : String) (values : List (String × String)) (bodyXml : String)
      (c : HttpResponse) (w2 : World) (r : HttpResponse) (rest : List DoResult),
      setCrumbs w = (OpResult.success c, w2) → w2.script = DoResult.ok r :: rest →
      (300 ≤ r.statusCode →
        (postForm w q values).2.client.jar = w2.client.jar ∧
        (post w q bodyXml).2.client.jar = w2.client.jar) ∧
      (r.statusCode < 300 → w2.client.hasJar = true →
        (postForm w q values).2.client.jar
          = w2.client.jar ++ r.cookies.map (fun ck => ((newFormRequest w2.client q values).1.url, ck)) ∧
        (post w q bodyXml).2.client.jar
          = w2.client.jar ++ r.cookies.map (fun ck => ((newRequest w2.client "POST" q bodyXml).url, ck))) := by
  intro w q values bodyXml c w2 r rest hc hs
  constructor
  · intro hge
    constructor
    · unfold postForm
      rw [hc]
      unfold httpDo
      simp only [newFormRequest, hs]
      rw [if_pos (by omega)]
    · unfold post
      rw [hc]
      unfold httpDo
      simp only [hs]
      rw [if_pos (by omega)]
  · intro hlt hj
    constructor
    · unfold postForm
      rw [hc]
      unfold httpDo
      simp only [newFormRequest, hs]
      rw [if_neg (by omega)]
      simp [setCookiesJar, hj, newRequest]
    · unfold post
      rw [hc]
      unfold httpDo
      simp only [hs]
      rw [if_neg (by omega)]
      simp [setCookiesJar, hj, newRequest]

end GoJenkins

namespace GoJenkins

/-- A successful crumb-issuer response. -/
def crumbOkResponse : HttpResponse :=
  { statusCode := 200, status := "200 OK", cookies := []
  , body := Body.bytes "\x7b\"crumb\":\"cr\",\"crumbRequestField\":\"Jenkins-Crumb\"\x7d" }

/-- A 500 response that tries to set a session cookie. -/
def serverErrorResponse : HttpResponse :=
  { statusCode := 500, status := "500 Internal Server Error"
  , cookies := [{ name := "session", value := "s1" }], body := Body.bytes "" }

/-- A world scripted for a successful crumb fetch followed by a remote 500. -/
def postErrorWorld : World :=
  { client := { baseURL := "http://127.0.0.1:8080", hasJar := true, jar := [], crumbs := none }
  , script := [DoResult.ok crumbOkResponse, DoResult.ok serverErrorResponse], issued := [] }

/-- Witness for C9: the 500 response's session cookie never reaches the
jar. -/
theorem jar_update_only_below_300_witness :
    setCrumbs postErrorWorld = (OpResult.success crumbOkResponse, (setCrumbs postErrorWorld).2) ∧
    (setCrumbs postErrorWorld).2.script = DoResult.ok serverErrorResponse :: [] ∧
    300 ≤ serverErrorResponse.statusCode ∧
    (postForm postErrorWorld "computer/doCreateItem" []).2.client.jar
      = (setCrumbs postErrorWorld).2.client.jar :=
  ⟨by decide, by decide, by decide,
    ((jar_update_only_below_300 postErrorWorld "computer/doCreateItem" [] ""
      crumbOkResponse (setCrumbs postErrorWorld).2 serverErrorResponse []
      (by decide) (by decide)).1 (by decide)).1⟩

end GoJenkins

namespace GoJenkins

/-! Section: node list responses (nodes.go). -/

/-- An arbitrary JSON value, standing in for Go's `interface{}` fields of
the list-response schema. -/
inductive JsonValue where
  | null
  | bool (b : Bool)
  | num (n : Int)
  | str (s : String)
  | arr (elems : List JsonValue)
deriving Repr

/-- The `AssignedLabels` from nodes.go. -/
structure AssignedLabels where
  name : String
deriving Repr, DecidableEq

/-- The `LoadStatistics` from nodes.go. -/
structure LoadStatistics where
  classOf : String
deriving Repr, DecidableEq

/-- The `SwapSpaceMonitor` from nodes.go. -/
structure SwapSpaceMonitor where
  classOf : String
  availablePhysicalMemory : Int
  availableSwapSpace : Int
  totalPhysicalMemory : Int
  totalSwapSpace : Int
deriving Repr, DecidableEq

/-- The `TemporarySpaceMonitor` from nodes.go. -/
structure TemporarySpaceMonitor where
  classOf : String
  timestamp : Int
  path : String
  size : Int
deriving Repr, DecidableEq

/-- The `DiskSpaceMonitor` from nodes.go. -/
structure DiskSpaceMonitor where
  classOf : String
  timestamp : Int
  path : String
  size : Int
deriving Repr, DecidableEq

/-- The `ResponseTimeMonitor` from nodes.go. -/
structure ResponseTimeMonitor where
  classOf : String
  timestamp : Int
  average : Int
deriving Repr, DecidableEq

/-- The `ClockMonitor` from nodes.go. -/
structure ClockMonitor where
  classOf : String
  diff : Int
deriving Repr, DecidableEq

/-- The `MonitorData` from nodes.go. -/
structure MonitorData where
  swapSpaceMonitor : SwapSpaceMonitor
  temporarySpaceMonitor : TemporarySpaceMonitor
  diskSpaceMonitor : DiskSpaceMonitor
  architectureMonitor : String
  responseTimeMonitor : ResponseTimeMonitor
  clockMonitor : ClockMonitor
deriving Repr, DecidableEq

/-- The `Computer` from nodes.go: the full per-node operational telemetry that
`json.Unmarshal` parses out of a list response. -/
structure Computer where
  classOf : String
  actions : List JsonValue
  assignedLabels : List AssignedLabels
  description : String
  displayName : String
  executors : List Unit
  icon : String
  iconClassName : String
  idle : Bool
  jnlpAgent : Bool
  launchSupported : Bool
  loadStatistics : LoadStatistics
  manualLaunchAllowed : Bool
  monitorData : MonitorData
  numExecutors : Int
  offline : Bool
  offlineCause : JsonValue
  offlineCauseReason : String
  oneOffExecutors : List JsonValue
  temporarilyOffline : Bool
  absoluteRemotePath : JsonValue
deriving Repr

/-- The `NodesListResponse` from nodes.go. -/
structure NodesListResponse where
  classOf : String
  busyExecutors : Int
  computer : List Computer
  displayName : String
  totalExecutors : Int
deriving Repr

/-- The projection loop of `NodesService.List` (nodes.go), applied to a
successfully decoded list response: each `Computer` becomes a `Node` that
carries only `displayName` and `description`; every other field keeps the
Go zero value. -/
def listProjectNodes (r : NodesListResponse) : List Node :=
  r.computer.map (fun comp =>
    { goZeroNode with name := comp.displayName, description := comp.description })

/-- C7: for every successfully decoded list response with `k` computers,
`List` returns exactly `k` nodes, the `i`-th carrying `computer[i]`'s
display name and description and nothing else — the remaining parsed
telemetry fields of `Computer` are dropped. -/
theorem list_projects_name_description :
    ∀ (r : NodesListResponse),
      (listProjectNodes r).length = r.computer.length ∧
      (∀ (i : Nat) (h1 : i < r.computer.length) (h2 : i < (listProjectNodes r).length),
        (listProjectNodes r).get ⟨i, h2⟩
          = { goZeroNode with
              name := (r.computer.get ⟨i, h1⟩).displayName
              description := (r.computer.get ⟨i, h1⟩).description }) := by
  intro r
  refine ⟨by simp [listProjectNodes], fun i h1 h2 => ?_⟩
  simp [listProjectNodes]

end GoJenkins

namespace GoJenkins

/-- A fully populated `Computer`, as a decoded list response would carry. -/
def sampleComputer : Computer :=
  { classOf := "hudson.model.Hudson$MasterComputer"
  , actions := [], assignedLabels := [{ name := "built-in" }]
  , description := "the built-in node", displayName := "Built-In Node"
  , executors := [(), ()], icon := "symbol-computer", iconClassName := "symbol-computer"
  , idle := true, jnlpAgent := false, launchSupported := true
  , loadStatistics := { classOf := "hudson.model.Label$1" }
  , manualLaunchAllowed := true
  , monitorData :=
    { swapSpaceMonitor :=
        { classOf := "hudson.node_monitors.SwapSpaceMonitor$MemoryUsage2"
        , availablePhysicalMemory := 1073741824, availableSwapSpace := 0
        , totalPhysicalMemory := 2147483648, totalSwapSpace := 0 }
    , temporarySpaceMonitor :=
        { classOf := "hudson.node_monitors.TemporarySpaceMonitor$DiskSpace"
        , timestamp := 1700000000, path := "/tmp", size := 100 }
    , diskSpaceMonitor :=
        { classOf := "hudson.node_monitors.DiskSpaceMonitor$DiskSpace"
        , timestamp := 1700000000, path := "/var/lib/jenkins", size := 200 }
    , architectureMonitor := "Linux (amd64)"
    , responseTimeMonitor :=
        { classOf := "hudson.node_monitors.ResponseTimeMonitor$Data"
        , timestamp := 1700000000, average := 0 }
    , clockMonitor := { classOf := "hudson.util.ClockDifference", diff := 0 } }
  , numExecutors := 2, offline := false, offlineCause := JsonValue.null
  , offlineCauseReason := "", oneOffExecutors := [], temporarilyOffline := false
  , absoluteRemotePath := JsonValue.null }

/-- A decoded list response with a single computer. -/
def sampleListResponse : NodesListResponse :=
  { classOf := "hudson.model.ComputerSet", busyExecutors := 0
  , computer := [sampleComputer], displayName := "nodes", totalExecutors := 2 }

/-- Witness for C7: the projection at index 0 of a concrete decoded
response. -/
theorem list_projects_name_description_witness :
    (0 : Nat) < sampleListResponse.computer.length ∧
    (0 : Nat) < (listProjectNodes sampleListResponse).length ∧
    (listProjectNodes sampleListResponse).get ⟨0, by decide⟩
      = { goZeroNode with name := "Built-In Node", description := "the built-in node" } :=
  ⟨by decide, by decide,
    (list_projects_name_description sampleListResponse).2 0 (by decide) (by decide)⟩

end GoJenkins

namespace GoJenkins

/-! Section: client construction options (jenkins.go). -/

/-- The configuration fields of `Client` that `NewClient` and its options
touch. -/
structure ClientInit where
  baseURL : String
  hasHTTPClient : Bool
  userName : String
  password : String
  apiToken : String
deriving Repr, DecidableEq

/-- The exported functional options of jenkins.go, as a closed datatype. -/
inductive ClientOption where
  | withClient
  | withBaseURL (baseURL : String)
  | withPassword (userName password : String)
  | withToken (userName apiToken : String)
deriving Repr, DecidableEq

/-- Application of one option: `WithPassword` fails when an API token is
already set, `WithToken` fails when a password is already set (jenkins.go). -/
def applyOpt (o : ClientOption) (c : ClientInit) : Except String ClientInit :=
  match o with
  | .withClient => Except.ok { c with hasHTTPClient := true }
  | .withBaseURL u => Except.ok { c with baseURL := u }
  | .withPassword u p =>
    if c.apiToken ≠ "" then Except.error "cannot set both API token and password"
    else Except.ok { c with userName := u, password := p }
  | .withToken u t =>
    if c.password ≠ "" then Except.error "cannot set both API token and password"
    else Except.ok { c with userName := u, apiToken := t }

/-- The option loop of `NewClient`: the first failing option aborts
construction. -/
def applyOpts : List ClientOption → ClientInit → Except String ClientInit
  | [], c => Except.ok c
  | o :: rest, c =>
    match applyOpt o c with
    | Except.error e => Except.error e
    | Except.ok c2 => applyOpts rest c2

/-- The initial client of `NewClient` (`defaultBaseURL`, nothing else set). -/
def initialClient : ClientInit :=
  { baseURL := "http://127.0.0.1:8080", hasHTTPClient := false
  , userName := "", password := "", apiToken := "" }

/-- The `NewClient` from jenkins.go, up to the option loop: a failing option
yields a configuration error and a nil client. -/
def newClient (opts : List ClientOption) : Except String ClientInit :=
  applyOpts opts initialClient

end GoJenkins

namespace GoJenkins

/-- The option loop distributes over list append, short-circuiting on the
first error. -/
theorem applyOpts_append (l1 l2 : List ClientOption) (c : ClientInit) :
    applyOpts (l1 ++ l2) c
      = match applyOpts l1 c with
        | Except.error e => Except.error e
        | Except.ok c2 => applyOpts l2 c2 := by
  induction l1 generalizing c with
  | nil => rfl
  | cons o rest ih =>
    simp only [List.cons_append, applyOpts]
    cases applyOpt o c <;> simp [ih]

/-- Options other than `WithPassword` never change the stored password. -/
theorem applyOpts_no_password_preserves (b : List ClientOption) :
    ∀ (c c2 : ClientInit), (∀ x y, ClientOption.withPassword x y ∉ b) →
      applyOpts b c = Except.ok c2 → c2.password = c.password := by
  induction b with
  | nil =>
    intro c c2 _ h
    cases h
    rfl
  | cons o rest ih =>
    intro c c2 hb h
    cases o with
    | withClient =>
      have := ih { c with hasHTTPClient := true } c2
        (fun x y hm => hb x y (List.mem_cons_of_mem _ hm)) h
      simpa using this
    | withBaseURL u =>
      have := ih { c with baseURL := u } c2
        (fun x y hm => hb x y (List.mem_cons_of_mem _ hm)) h
      simpa using this
    | withPassword x y => exact absurd (List.mem_cons_self _ _) (hb x y)
    | withToken x y =>
      by_cases hp : c.password ≠ ""
      · simp [applyOpts, applyOpt, hp] at h
      · simp only [applyOpts, applyOpt, hp, if_neg, ite_false] at h
        simp only [ne_eq, not_not] at hp
        have := ih { c with userName := x, apiToken := y } c2
          (fun x2 y2 hm => hb x2 y2 (List.mem_cons_of_mem _ hm)) h
        simpa [hp] using this

/-- Options other than `WithToken` never change the stored API token. -/
theorem applyOpts_no_token_preserves (b : List ClientOption) :
    ∀ (c c2 : ClientInit), (∀ x y, ClientOption.withToken x y ∉ b) →
      applyOpts b c = Except.ok c2 → c2.apiToken = c.apiToken := by
  induction b with
  | nil =>
    intro c c2 _ h
    cases h
    rfl
  | cons o rest ih =>
    intro c c2 hb h
    cases o with
    | withClient =>
      have := ih { c with hasHTTPClient := true } c2
        (fun x y hm => hb x y (List.mem_cons_of_mem _ hm)) h
      simpa using this
    | withBaseURL u =>
      have := ih { c with baseURL := u } c2
        (fun x y hm => hb x y (List.mem_cons_of_mem _ hm)) h
      simpa using this
    | withToken x y => exact absurd (List.mem_cons_self _ _) (hb x y)
    | withPassword x y =>
      by_cases hp : c.apiToken ≠ ""
      · simp [applyOpts, applyOpt, hp] at h
      · simp only [applyOpts, applyOpt, hp, if_neg, ite_false] at h
        simp only [ne_eq, not_not] at hp
        have := ih { c with userName := x, password := y } c2
          (fun x2 y2 hm => hb x2 y2 (List.mem_cons_of_mem _ hm)) h
        simpa [hp] using this

end GoJenkins

namespace GoJenkins

/-- Successful option runs over an append split into successful runs of the
two halves. -/
theorem applyOpts_append_ok (l1 l2 : List ClientOption) (c c2 : ClientInit)
    (h : applyOpts (l1 ++ l2) c = Except.ok c2) :
    ∃ c1, applyOpts l1 c = Except.ok c1 ∧ applyOpts l2 c1 = Except.ok c2 := by
  rw [applyOpts_append] at h
  cases h1 : applyOpts l1 c with
  | error e => rw [h1] at h; cases h
  | ok c1 => rw [h1] at h; exact ⟨c1, rfl, h⟩

/-- C8 counterexample: an option list that contains `WithPassword` with a
non-empty password and `WithToken` with a non-empty token, yet constructs a
client successfully — a second `WithPassword` with an empty password clears
the stored password before the token option runs its check. -/
theorem newClient_both_auth_counterexample :
    (ClientOption.withPassword "a" "p"
        ∈ [ClientOption.withPassword "a" "p", ClientOption.withPassword "b" "",
           ClientOption.withToken "c" "t"]) ∧
    (ClientOption.withToken "c" "t"
        ∈ [ClientOption.withPassword "a" "p", ClientOption.withPassword "b" "",
           ClientOption.withToken "c" "t"]) ∧
    ("p" : String) ≠ "" ∧ ("t" : String) ≠ "" ∧
    newClient [ClientOption.withPassword "a" "p", ClientOption.withPassword "b" "",
        ClientOption.withToken "c" "t"]
      = Except.ok { baseURL := "http://127.0.0.1:8080", hasHTTPClient := false
                  , userName := "c", password := "", apiToken := "t" } := by
  refine ⟨by decide, by decide, by decide, by decide, rfl⟩

/-- C8 (amended): `NewClient` fails with a configuration error whenever the
option list contains `WithPassword` with a non-empty password and
`WithToken` with a non-empty token, in either order, provided no further
option of the first credential's kind sits between them (which could clear
the credential again). -/
theorem newClient_conflicting_auth_errors :
    ∀ (a b c : List ClientOption) (u p u2 t : String), p ≠ "" → t ≠ "" →
      ((∀ x y, ClientOption.withPassword x y ∉ b) →
        ∃ e, newClient (a ++ ClientOption.withPassword u p :: b
            ++ ClientOption.withToken u2 t :: c) = Except.error e) ∧
      ((∀ x y, ClientOption.withToken x y ∉ b) →
        ∃ e, newClient (a ++ ClientOption.withToken u2 t :: b
            ++ ClientOption.withPassword u p :: c) = Except.error e) := by
  intro a b c u p u2 t hp ht
  constructor
  · intro hb
    unfold newClient
    rw [applyOpts_append]
    cases h1 : applyOpts (a ++ ClientOption.withPassword u p :: b) initialClient with
    | error e => exact ⟨e, rfl⟩
    | ok c2 =>
      obtain ⟨c1, _, hwb⟩ := applyOpts_append_ok a _ _ _ h1
      by_cases htk : c1.apiToken ≠ ""
      · rw [show applyOpts (ClientOption.withPassword u p :: b) c1
            = Except.error "cannot set both API token and password" by
              simp [applyOpts, applyOpt, htk]] at hwb
        cases hwb
      · simp only [applyOpts, applyOpt, htk, ite_false] at hwb
        have hpw : c2.password = p := by
          have := applyOpts_no_password_preserves b _ c2 hb hwb
          simpa using this
        exact ⟨"cannot set both API token and password",
          by simp [applyOpts, applyOpt, hpw, hp]⟩
  · intro hb
    unfold newClient
    rw [applyOpts_append]
    cases h1 : applyOpts (a ++ ClientOption.withToken u2 t :: b) initialClient with
    | error e => exact ⟨e, rfl⟩
    | ok c2 =>
      obtain ⟨c1, _, hwb⟩ := applyOpts_append_ok a _ _ _ h1
      by_cases hpw : c1.password ≠ ""
      · rw [show applyOpts (ClientOption.withToken u2 t :: b) c1
            = Except.error "cannot set both API token and password" by
              simp [applyOpts, applyOpt, hpw]] at hwb
        cases hwb
      · simp only [applyOpts, applyOpt, hpw, ite_false] at hwb
        have htk : c2.apiToken = t := by
          have := applyOpts_no_token_preserves b _ c2 hb hwb
          simpa using this
        exact ⟨"cannot set both API token and password",
          by simp [applyOpts, applyOpt, htk, ht]⟩

/-- Witness for C8 (amended): the two-option list in each order fails. -/
theorem newClient_conflicting_auth_errors_witness :
    ("p" : String) ≠ "" ∧ ("t" : String) ≠ "" ∧
    (∃ e, newClient ([] ++ ClientOption.withPassword "admin" "p" :: []
        ++ ClientOption.withToken "admin" "t" :: []) = Except.error e) ∧
    (∃ e, newClient ([] ++ ClientOption.withToken "admin" "t" :: []
        ++ ClientOption.withPassword "admin" "p" :: []) = Except.error e) :=
  ⟨by decide, by decide,
    (newClient_conflicting_auth_errors [] [] [] "admin" "p" "admin" "t"
      (by decide) (by decide)).1 (by intro x y h; cases h),
    (newClient_conflicting_auth_errors [] [] [] "admin" "p" "admin" "t"
      (by decide) (by decide)).2 (by intro x y h; cases h)⟩

end GoJenkins

namespace GoJenkins

/-! Section: the XML version rewrite of NodesService.Get (nodes.go). -/

/-- Whether `pat` is a prefix of the character list. -/
def startsWithChars : List Char → List Char → Bool
  | [], _ => true
  | _ :: _, [] => false
  | p :: ps, c :: cs => p = c && startsWithChars ps cs

/-- Leftmost non-overlapping replacement over character lists, with a fuel
argument for structural recursion (the fuel never runs out when it starts at
the input length). -/
def replCharsF (pat rep : List Char) : Nat → List Char → List Char
  | _, [] => []
  | 0, s => s
  | fuel + 1, c :: rest =>
    if startsWithChars pat (c :: rest) then
      rep ++ replCharsF pat rep fuel (List.drop (pat.length - 1) rest)
    else
      c :: replCharsF pat rep fuel rest

/-- The scan of Go's `strings.Replace(s, old, new, -1)` for a non-empty
`old`: replace the leftmost occurrence and continue after it. -/
def replChars (pat rep s : List Char) : List Char :=
  replCharsF pat rep s.length s

/-- The fuel is irrelevant as long as it bounds the input length. -/
theorem replCharsF_irrel (pat rep : List Char) :
    ∀ (fuel1 fuel2 : Nat) (s : List Char), s.length ≤ fuel1 → s.length ≤ fuel2 →
      replCharsF pat rep fuel1 s = replCharsF pat rep fuel2 s := by
  intro fuel1
  induction fuel1 with
  | zero =>
    intro fuel2 s h1 _
    cases s with
    | nil => cases fuel2 <;> rfl
    | cons c rest => simp at h1
  | succ f ih =>
    intro fuel2 s h1 h2
    cases s with
    | nil => cases fuel2 <;> rfl
    | cons c rest =>
      cases fuel2 with
      | zero => simp at h2
      | succ f2 =>
        simp only [replCharsF]
        have hr : rest.length ≤ f := by simpa using h1
        have hr2 : rest.length ≤ f2 := by simpa using h2
        have hd : (List.drop (pat.length - 1) rest).length ≤ f := by
          simp only [List.length_drop]
          omega
        have hd2 : (List.drop (pat.length - 1) rest).length ≤ f2 := by
          simp only [List.length_drop]
          omega
        rw [ih _ _ hd hd2, ih _ _ hr hr2]

/-- The empty-input equation of the replacement scan. -/
theorem replChars_nil (pat rep : List Char) : replChars pat rep [] = [] := rfl

/-- The step equation of the replacement scan. -/
theorem replChars_cons (pat rep : List Char) (c : Char) (rest : List Char) :
    replChars pat rep (c :: rest)
      = if startsWithChars pat (c :: rest) then
          rep ++ replChars pat rep (List.drop (pat.length - 1) rest)
        else
          c :: replChars pat rep rest := by
  unfold replChars
  simp only [List.length_cons, replCharsF]
  split
  · exact congrArg (fun l => rep ++ l)
      (replCharsF_irrel pat rep rest.length (List.drop (pat.length - 1) rest).length _
        (by rw [List.length_drop]; omega) (le_refl _))
  · rfl

/-- The `strings.Replace(s, old, rep, -1)`: for an empty `old`, Go inserts `rep`
before every rune and once at the end. -/
def goReplaceAll (s old rep : String) : String :=
  if old.data.isEmpty then
    String.mk (rep.data ++ (s.data.map (fun c => c :: rep.data)).flatten)
  else
    String.mk (replChars old.data rep.data s.data)

/-- Whether `pat` occurs anywhere in the character list (including, for an
empty pattern, at the end). -/
def occursInChars (pat : List Char) : List Char → Bool
  | [] => startsWithChars pat []
  | c :: rest => startsWithChars pat (c :: rest) || occursInChars pat rest

/-- Whether an occurrence of `pat` begins at a position strictly inside the
first component of `x ++ tail`. -/
def occursBefore (pat : List Char) : List Char → List Char → Bool
  | [], _ => false
  | c :: xs, tail => startsWithChars pat (c :: (xs ++ tail)) || occursBefore pat xs tail

/-- Every list starts with itself. -/
theorem startsWithChars_self_append (p t : List Char) :
    startsWithChars p (p ++ t) = true := by
  induction p with
  | nil => rfl
  | cons a ps ih => simp [startsWithChars, ih]

/-- A pattern-free input passes through the replacement scan unchanged. -/
theorem replChars_of_no_occurrence (pat rep : List Char) :
    ∀ s, occursInChars pat s = false → replChars pat rep s = s := by
  intro s
  induction s with
  | nil => intro _; rfl
  | cons c rest ih =>
    intro h
    simp only [occursInChars, Bool.or_eq_false_iff] at h
    rw [replChars_cons, if_neg (by simp [h.1]), ih h.2]

/-- The replacement scan rewrites the leftmost occurrence and continues after
it: splitting the input around an occurrence that no earlier position
shadows, the prefix is kept, the occurrence becomes the replacement, and the
scan proceeds on the suffix alone. -/
theorem replChars_split (pat rep : List Char) (hne : pat ≠ []) :
    ∀ x y, occursBefore pat x (pat ++ y) = false →
      replChars pat rep (x ++ (pat ++ y)) = x ++ (rep ++ replChars pat rep y) := by
  intro x
  induction x with
  | nil =>
    intro y _
    obtain ⟨p, ps, rfl⟩ : ∃ p ps, pat = p :: ps := by
      cases pat with
      | nil => exact absurd rfl hne
      | cons p ps => exact ⟨p, ps, rfl⟩
    simp only [List.nil_append, List.cons_append, replChars_cons]
    rw [if_pos (by simpa using startsWithChars_self_append (p :: ps) y)]
    simp only [List.length_cons, Nat.add_sub_cancel]
    rw [List.drop_left]
  | cons a xs ih =>
    intro y h
    simp only [occursBefore, Bool.or_eq_false_iff] at h
    simp only [List.cons_append, replChars_cons]
    rw [if_neg (by simpa using h.1), ih y h.2]

/-- The search pattern of the rewrite in `NodesService.Get`. -/
def xml11Pat : String := "xml version=\x221.1\x22"

/-- The replacement of the rewrite in `NodesService.Get`. -/
def xml10Rep : String := "xml version=\x221.0\x22"

/-- The body preprocessing of `NodesService.Get` (nodes.go): Go cannot
unmarshal XML 1.1 documents, so every occurrence of `xml version="1.1"` is
replaced by `xml version="1.0"` before the bytes reach `xml.Unmarshal`. -/
def nodesGetPrepareBody (body : String) : String :=
  goReplaceAll body xml11Pat xml10Rep

/-- C10: the decoder input of `NodesService.Get` is the response body with
every occurrence of `xml version="1.1"` replaced by `xml version="1.0"`: a
pattern-free body is passed through byte-for-byte, each occurrence is
rewritten in place with the surrounding bytes unchanged, and a concrete XML
1.1 document becomes the corresponding XML 1.0 document. -/
theorem nodesGet_rewrites_xml_version :
    (∀ body : String, nodesGetPrepareBody body
        = String.mk (replChars xml11Pat.data xml10Rep.data body.data)) ∧
    (∀ s : List Char, occursInChars xml11Pat.data s = false →
      nodesGetPrepareBody (String.mk s) = String.mk s) ∧
    (∀ x y : List Char, occursBefore xml11Pat.data x (xml11Pat.data ++ y) = false →
      (nodesGetPrepareBody (String.mk (x ++ (xml11Pat.data ++ y)))).data
        = x ++ (xml10Rep.data ++ replChars xml11Pat.data xml10Rep.data y)) ∧
    nodesGetPrepareBody "<?xml version=\x221.1\x22 encoding=\x22UTF-8\x22?><slave><name>test</name></slave>"
      = "<?xml version=\x221.0\x22 encoding=\x22UTF-8\x22?><slave><name>test</name></slave>" := by
  have hpipe : ∀ body : String, nodesGetPrepareBody body
      = String.mk (replChars xml11Pat.data xml10Rep.data body.data) := by
    intro body
    rw [nodesGetPrepareBody, goReplaceAll, if_neg (by decide)]
  refine ⟨hpipe, fun s h => ?_, fun x y h => ?_, ?_⟩
  · rw [hpipe, replChars_of_no_occurrence _ _ _ h]
  · rw [hpipe, replChars_split _ _ (by decide) x y h]
  · decide

/-- Witness for C10: the pattern-free and the split parts evaluated on
concrete bodies. -/
theorem nodesGet_rewrites_xml_version_witness :
    occursInChars xml11Pat.data ("<slave></slave>" : String).data = false ∧
    nodesGetPrepareBody "<slave></slave>" = "<slave></slave>" ∧
    occursBefore xml11Pat.data ("<?" : String).data (xml11Pat.data ++ ("?>" : String).data) = false ∧
    (nodesGetPrepareBody (String.mk (("<?" : String).data
        ++ (xml11Pat.data ++ ("?>" : String).data)))).data
      = ("<?" : String).data ++ (xml10Rep.data
          ++ replChars xml11Pat.data xml10Rep.data ("?>" : String).data) :=
  ⟨by decide,
    nodesGet_rewrites_xml_version.2.1 ("<slave></slave>" : String).data (by decide),
    by decide,
    nodesGet_rewrites_xml_version.2.2.1 ("<?" : String).data ("?>" : String).data (by decide)⟩

end GoJenkins
